import Mathlib

/-!
Verification of the cw-agent certificate-scanning pipeline.

This file gives a shallow embedding, in Lean 4, of the core of the
`certwatch-app/cw-agent` Go repository: the chain validator and leaf
parser (`internal/scanner/scanner.go`), the scan orchestrator
(`Scanner.ScanAll`), the sync client's identity update (`internal/sync/client.go`),
the heartbeat and its recovery path (`internal/agent/agent.go`), and the
persisted state store (`internal/state/state.go`).

Conventions of the embedding:
- `time.Time` values are modelled as `Int` nanoseconds since the epoch;
  Go's `t.After(u)` is `t > u` and `t.Before(u)` is `t < u`.
- Go slices are Lean `List`s; appends in index order become `++ [x]`.
- External effects (TLS dial outcome, HTTP response, file read outcome)
  are parameters of the corresponding Lean function, so every control path
  of the Go code is a value of an outcome type.
- Calls into the Go standard library whose exact behaviour the claims do
  not depend on (`x509.Certificate.VerifyHostname`, `time.Format`,
  SHA-256 hex encoding) are abstract function parameters.
-/

namespace CW

/-- A parsed X.509 certificate, keeping exactly the fields
`internal/scanner/scanner.go` reads from `x509.Certificate`. -/
structure XCert where
  /-- `cert.Subject.CommonName` -/
  subjectCN : String
  /-- `cert.Issuer.CommonName` -/
  issuerCN : String
  /-- `cert.Subject.String()`, the RFC 2253 distinguished name -/
  subjectDN : String
  /-- `cert.Issuer.String()` -/
  issuerDN : String
  /-- `cert.NotBefore`, nanoseconds since epoch -/
  notBefore : Int
  /-- `cert.NotAfter`, nanoseconds since epoch -/
  notAfter : Int
  /-- `cert.SignatureAlgorithm.String()` -/
  sigAlg : String
  /-- `cert.Raw`, the DER bytes -/
  raw : List Nat
  /-- `cert.SerialNumber` -/
  serial : Int
  /-- `cert.Issuer.Organization` -/
  issuerOrgs : List String
  /-- `cert.DNSNames` -/
  dnsNames : List String
  /-- `cert.IPAddresses`, already rendered with `ip.String()` -/
  ipStrings : List String
deriving Repr, DecidableEq

/-- Abstract standard-library services used by the scanner: hostname
verification (`VerifyHostname` returning nil), the text of the hostname
error, and RFC 3339 time formatting. -/
structure ScanEnv where
  verifyHostname : XCert → String → Bool
  hostnameErrText : XCert → String → String
  rfc3339 : Int → String

/-- `ChainIssue` from `internal/scanner/types.go`. -/
structure ChainIssue where
  type : String
  message : String
  certificateIndex : Nat
deriving Repr, DecidableEq

/-- `ChainCertificate` from `internal/scanner/types.go`. -/
structure ChainCertificate where
  subject : String
  issuer : String
  notBefore : Int
  notAfter : Int
deriving Repr, DecidableEq

/-- `ChainInfo` from `internal/scanner/types.go`. -/
structure ChainInfo where
  valid : Bool
  issues : List ChainIssue
  certificates : List ChainCertificate
deriving Repr, DecidableEq

/-- ASCII upper-casing of one character, as `strings.ToUpper` acts on the
ASCII signature-algorithm names produced by `SignatureAlgorithm.String()`. -/
def goUpperChar (c : Char) : Char :=
  if c.toNat ≥ 97 ∧ c.toNat ≤ 122 then Char.ofNat (c.toNat - 32) else c

/-- `strings.ToUpper` restricted to ASCII input. -/
def goToUpper (s : String) : String := ⟨s.data.map goUpperChar⟩

/-- `strings.Contains(s, pat)`. -/
def strContainsSub (s pat : String) : Bool := decide (pat.data <:+: s.data)

/-- `isWeakSignature` from `internal/scanner/scanner.go`: upper-case the
algorithm name and look for MD2, MD5 or SHA1 as a substring. -/
def isWeakSignature (algo : String) : Bool :=
  let up := goToUpper algo
  ["MD2", "MD5", "SHA1"].any fun w => strContainsSub up w

/-- The `ChainCertificate` summary built for one certificate at the top of
the `parseChain` loop. -/
def mkChainCert (c : XCert) : ChainCertificate :=
  { subject := c.subjectCN, issuer := c.issuerCN
    notBefore := c.notBefore, notAfter := c.notAfter }

/-- The `hostname_mismatch` issue appended by `parseChain`. -/
def hostnameMismatchIssue (env : ScanEnv) (leaf : XCert) (hostname : String) : ChainIssue :=
  { type := "hostname_mismatch"
    message := "Certificate does not match hostname: " ++ env.hostnameErrText leaf hostname
    certificateIndex := 0 }

/-- One iteration of the first `for i, cert := range certs` loop of
`parseChain`: append the display summary, then the `expired`,
`not_yet_valid` and (index 0 only) `self_signed` checks, in source order. -/
def chainStep (env : ScanEnv) (now : Int) (i : Nat) (c : XCert) (chain : ChainInfo) : ChainInfo :=
  let chain := { chain with certificates := chain.certificates ++ [mkChainCert c] }
  let chain :=
    if now > c.notAfter then
      { chain with valid := false
                   issues := chain.issues ++
                     [{ type := "expired"
                        message := "Certificate expired on " ++ env.rfc3339 c.notAfter
                        certificateIndex := i }] }
    else chain
  let chain :=
    if now < c.notBefore then
      { chain with valid := false
                   issues := chain.issues ++
                     [{ type := "not_yet_valid"
                        message := "Certificate not valid until " ++ env.rfc3339 c.notBefore
                        certificateIndex := i }] }
    else chain
  if i = 0 ∧ c.subjectDN = c.issuerDN then
    { chain with issues := chain.issues ++
        [{ type := "self_signed"
           message := "Leaf certificate is self-signed"
           certificateIndex := i }] }
  else chain

/-- The first `for i, cert := range certs` loop of `parseChain`,
threading the accumulated `ChainInfo`. -/
def chainLoop (env : ScanEnv) (now : Int) : Nat → List XCert → ChainInfo → ChainInfo
  | _, [], chain => chain
  | i, c :: cs, chain => chainLoop env now (i + 1) cs (chainStep env now i c chain)

/-- The final `for i, cert := range certs` loop of `parseChain`, appending
`weak_crypto` issues. -/
def weakLoop : Nat → List XCert → ChainInfo → ChainInfo
  | _, [], chain => chain
  | i, c :: cs, chain =>
    weakLoop (i + 1) cs
      (if isWeakSignature c.sigAlg then
        { chain with issues := chain.issues ++
            [{ type := "weak_crypto"
               message := "Weak signature algorithm: " ++ c.sigAlg
               certificateIndex := i }] }
      else chain)

/-- `parseChain` from `internal/scanner/scanner.go`: per-certificate pass,
hostname verification of the leaf, then the weak-signature pass. -/
def parseChain (env : ScanEnv) (certs : List XCert) (hostname : String) (now : Int) : ChainInfo :=
  let chain : ChainInfo := { valid := true, issues := [], certificates := [] }
  let chain := chainLoop env now 0 certs chain
  let chain :=
    match certs with
    | [] => chain
    | leaf :: _ =>
      if env.verifyHostname leaf hostname then chain
      else { chain with issues := chain.issues ++ [hostnameMismatchIssue env leaf hostname] }
  weakLoop 0 certs chain

/-! Specification-side descriptions of the validator output, written from
the spec's wording (§4.1), to be compared with `parseChain`. -/

/-- Whether one certificate is outside its validity window at `now`
(the two conditions that mark the chain invalid). -/
def certInvalidAt (now : Int) (c : XCert) : Bool :=
  decide (now > c.notAfter) || decide (now < c.notBefore)

/-- Spec §4.1 step 1, for one certificate at index `i`: `expired`, then
`not_yet_valid`, then (index 0 only) `self_signed`. -/
def certPassIssues (env : ScanEnv) (now : Int) (i : Nat) (c : XCert) : List ChainIssue :=
  (if now > c.notAfter then
    [{ type := "expired"
       message := "Certificate expired on " ++ env.rfc3339 c.notAfter
       certificateIndex := i }]
   else []) ++
  (if now < c.notBefore then
    [{ type := "not_yet_valid"
       message := "Certificate not valid until " ++ env.rfc3339 c.notBefore
       certificateIndex := i }]
   else []) ++
  (if i = 0 ∧ c.subjectDN = c.issuerDN then
    [{ type := "self_signed"
       message := "Leaf certificate is self-signed"
       certificateIndex := i }]
   else [])

/-- Spec §4.1 step 1 over the whole chain, in index order starting at `i`. -/
def passOneIssuesFrom (env : ScanEnv) (now : Int) : Nat → List XCert → List ChainIssue
  | _, [] => []
  | i, c :: cs => certPassIssues env now i c ++ passOneIssuesFrom env now (i + 1) cs

/-- Spec §4.1 step 2: at most one `hostname_mismatch` at index 0, when the
leaf fails hostname verification. -/
def hostnameIssues (env : ScanEnv) (certs : List XCert) (hostname : String) : List ChainIssue :=
  match certs with
  | [] => []
  | leaf :: _ =>
    if env.verifyHostname leaf hostname then []
    else [hostnameMismatchIssue env leaf hostname]

/-- Spec §4.1 step 3: `weak_crypto` per weak certificate, in index order
starting at `i`. -/
def weakIssuesFrom : Nat → List XCert → List ChainIssue
  | _, [] => []
  | i, c :: cs =>
    (if isWeakSignature c.sigAlg then
      [{ type := "weak_crypto"
         message := "Weak signature algorithm: " ++ c.sigAlg
         certificateIndex := i }]
     else []) ++ weakIssuesFrom (i + 1) cs

/-- `CertificateInfo` from `internal/scanner/types.go`. -/
structure CertificateInfo where
  subject : String
  issuer : String
  issuerOrg : String
  serialNumber : String
  fingerprintSHA256 : String
  sanList : List String
  notBefore : Int
  notAfter : Int
  daysUntilExpiry : Int
deriving Repr, DecidableEq

/-- Nanoseconds in 24 hours: the divisor hidden in
`time.Until(cert.NotAfter).Hours() / 24`. -/
def nsPerDay : Int := 86400000000000

/-- `parseCertificate` from `internal/scanner/scanner.go`. `sha256Hex`
abstracts hex-encoded SHA-256 of the raw DER bytes. `daysUntilExpiry`
models `int(time.Until(cert.NotAfter).Hours() / 24)`: `time.Until` is
`NotAfter - now` in nanoseconds and Go's float-to-int conversion truncates
toward zero, which on these exact rationals is `Int.tdiv` by `nsPerDay`. -/
def parseCertificate (sha256Hex : List Nat → String) (now : Int) (cert : XCert) :
    CertificateInfo :=
  { subject := cert.subjectCN
    issuer := cert.issuerCN
    issuerOrg := match cert.issuerOrgs with | [] => "" | o :: _ => o
    serialNumber := toString cert.serial
    fingerprintSHA256 := sha256Hex cert.raw
    sanList := cert.dnsNames ++ cert.ipStrings
    notBefore := cert.notBefore
    notAfter := cert.notAfter
    daysUntilExpiry := Int.tdiv (cert.notAfter - now) nsPerDay }

/-- `ScanResult` from `internal/scanner/types.go`; the optional certificate
and chain mirror the Go nil pointers. -/
structure ScanResult where
  certificate : Option CertificateInfo
  chain : Option ChainInfo
  hostname : String
  error : String
  scannedAt : Int
  port : Int
  success : Bool
deriving Repr, DecidableEq

/-- Outcome of `tls.DialWithDialer` followed by `ConnectionState()`:
either an error, or a connection presenting a list of peer certificates. -/
inductive DialOutcome where
  | dialError (msg : String)
  | connected (peerCertificates : List XCert)
deriving Repr, DecidableEq

/-- `Scan` from `internal/scanner/scanner.go`: dial failure captures the
error text, an empty peer list yields "no certificates received", and the
success path parses the leaf and runs the chain validator. -/
def scan (env : ScanEnv) (sha256Hex : List Nat → String) (outcome : DialOutcome)
    (hostname : String) (port : Int) (now : Int) : ScanResult :=
  let result : ScanResult :=
    { certificate := none, chain := none, hostname := hostname
      error := "", scannedAt := now, port := port, success := false }
  match outcome with
  | .dialError msg =>
    { result with success := false, error := "connection failed: " ++ msg }
  | .connected [] =>
    { result with success := false, error := "no certificates received" }
  | .connected (leaf :: rest) =>
    { result with success := true
                  certificate := some (parseCertificate sha256Hex now leaf)
                  chain := some (parseChain env (leaf :: rest) hostname now) }

/-- `CertificateConfig` from `internal/config/config.go`: one configured
endpoint. -/
structure CertificateConfig where
  hostname : String
  port : Int
  tags : List String
  notes : String
deriving Repr, DecidableEq

/-- The result synthesized by `ScanAll` for an endpoint whose context is
canceled before it acquires a semaphore slot. -/
def canceledResult (now : Int) (c : CertificateConfig) : ScanResult :=
  { certificate := none, chain := none, hostname := c.hostname
    error := "context canceled", scannedAt := now, port := c.port, success := false }

/-- `ScanAll` from `internal/scanner/scanner.go`, one goroutine per index
writing `results[idx]`. The semaphore and goroutine scheduling are
abstracted into two oracles: `scanOf` gives the `Scan` result an endpoint
would produce once past the semaphore, and `canceledBeforeSlot i` says
whether goroutine `i`'s `select` took the `ctx.Done()` branch instead of
acquiring a slot. -/
def scanAllFrom (scanOf : CertificateConfig → ScanResult)
    (canceledBeforeSlot : Nat → Bool) (now : Int) :
    Nat → List CertificateConfig → List ScanResult
  | _, [] => []
  | i, c :: cs =>
    (if canceledBeforeSlot i then canceledResult now c else scanOf c) ::
      scanAllFrom scanOf canceledBeforeSlot now (i + 1) cs

/-- `ScanAll`: the results slice, position `idx` holding endpoint `idx`'s
result. -/
def scanAll (scanOf : CertificateConfig → ScanResult)
    (canceledBeforeSlot : Nat → Bool) (now : Int)
    (certs : List CertificateConfig) : List ScanResult :=
  scanAllFrom scanOf canceledBeforeSlot now 0 certs

/-! ### Sync client and identity state (`internal/sync/client.go`,
`internal/state/state.go`) -/

/-- The in-memory identity held by `state.Manager` and mutated by the sync
client: `agent_id`, `agent_name`, `previous_agent_id`, `last_sync_at`,
`last_updated`. -/
structure StateData where
  agentID : String
  agentName : String
  previousAgentID : String
  lastSyncAt : Int
  lastUpdated : Int
deriving Repr, DecidableEq

/-- The zero `State{}` value: the first-run identity. -/
def emptyState : StateData :=
  { agentID := "", agentName := "", previousAgentID := "", lastSyncAt := 0, lastUpdated := 0 }

/-- `SyncResponseData` from `internal/sync/types.go` (the fields the client
reads). -/
structure SyncResponseData where
  syncedAt : Int
  created : Int
  updated : Int
  unchanged : Int
  orphaned : Int
  migrated : Int
deriving Repr, DecidableEq

/-- `SyncResponse` from `internal/sync/types.go` (the fields the client
reads). -/
structure SyncResponse where
  agentID : String
  data : SyncResponseData
  success : Bool
deriving Repr, DecidableEq

/-- The state-mutation block of `Client.Sync` (client.go): on
`resp.Success && resp.AgentID != ""` set the agent id, the configured
agent name and the server sync timestamp, clear `previousAgentID` when a
migration was pending and `migrated > 0`, then call `Save`. Returns the
new state and whether `Save` was attempted. -/
def syncApply (cfgAgentName : String) (st : StateData) (resp : SyncResponse) :
    StateData × Bool :=
  if resp.success = true ∧ resp.agentID ≠ "" then
    let st1 : StateData :=
      { st with agentID := resp.agentID, agentName := cfgAgentName
                lastSyncAt := resp.data.syncedAt }
    let st2 : StateData :=
      if st1.previousAgentID ≠ "" ∧ resp.data.migrated > 0 then
        { st1 with previousAgentID := "" }
      else st1
    (st2, true)
  else (st, false)

/-- `Client.Sync` as a state transition: `none` is a failed HTTP exchange
(`doRequest` returned an error, `Sync` returns before touching state),
`some resp` a decoded response handed to the mutation block. -/
def syncStep (cfgAgentName : String) (st : StateData) (out : Option SyncResponse) :
    StateData × Bool :=
  match out with
  | none => (st, false)
  | some resp => syncApply cfgAgentName st resp

/-- `HeartbeatRequest` from `internal/sync/types.go`. -/
structure HeartbeatRequest where
  agentID : String
  agentName : String
  agentVersion : String
  certificateCount : Int
  status : String
  lastScanAt : Option Int
  lastSyncAt : Option Int
deriving Repr, DecidableEq

/-- Error classification of a heartbeat HTTP exchange. `agentNotFound`
models the distinguished `sync.ErrAgentNotFound`. Modelled from the spec:
the error value itself and its detection inside `Client.Heartbeat` live in
a sync-package file that is not in the tree; the spec calls it the
distinguished "identity not found" failure. -/
inductive HBError where
  | agentNotFound
  | other (msg : String)
deriving Repr, DecidableEq

/-- `Client.Heartbeat` (client.go): a no-op returning nil when no agentID
is persisted, otherwise it builds the request (zero-valued timestamps
omitted) and performs the HTTP exchange, whose outcome is the oracle
`net`. Returns the (unmutated) state, the request issued if any, and the
error returned. -/
def heartbeatCall (net : Option HBError) (ver cfgAgentName : String) (st : StateData)
    (certCount lastScan lastSync : Int) :
    StateData × Option HeartbeatRequest × Option HBError :=
  if st.agentID = "" then (st, none, none)
  else
    let req : HeartbeatRequest :=
      { agentID := st.agentID, agentName := cfgAgentName, agentVersion := ver
        certificateCount := certCount, status := "healthy"
        lastScanAt := if lastScan ≠ 0 then some lastScan else none
        lastSyncAt := if lastSync ≠ 0 then some lastSync else none }
    (st, some req, net)

/-- `Manager.ClearAgentID` (state.go): blank the agent id, keep every
other field. -/
def clearAgentID (st : StateData) : StateData := { st with agentID := "" }

/-- `Agent.sendHeartbeat` (agent.go): call `Client.Heartbeat`; on the
distinguished not-found error, clear the agent id and synchronously run
one full scan+sync cycle (`scanAndSync`, the oracle `scanSync`, returning
the state it leaves and the error if it failed). Result: the final state,
whether the recovery scan+sync cycle ran, and the error `sendHeartbeat`
returns. -/
def sendHeartbeat (net : Option HBError) (scanSync : StateData → StateData × Option HBError)
    (ver cfgAgentName : String) (st : StateData) (certCount lastScan lastSync : Int) :
    StateData × Bool × Option HBError :=
  let r := heartbeatCall net ver cfgAgentName st certCount lastScan lastSync
  match r.2.2 with
  | none => (r.1, false, none)
  | some HBError.agentNotFound =>
    let st2 := clearAgentID r.1
    let s := scanSync st2
    (s.1, true, s.2)
  | some (HBError.other msg) => (r.1, false, some (HBError.other msg))

/-! ### State persistence (`internal/state/state.go`) -/

/-- Outcome of `os.ReadFile` plus `json.Unmarshal` in `Manager.Load`:
the file is missing, unreadable, present but unparseable, or parses to a
state value. -/
inductive ReadOutcome where
  | missing
  | readError
  | corrupt
  | parsed (s : StateData)
deriving Repr, DecidableEq

/-- `Manager.Load`: missing file resets to the zero state and returns nil;
a read error returns an error leaving `m.state` as it was; an unparseable
file resets to the zero state and returns an error; a parsed file replaces
the state. Second component: whether an error was returned. -/
def load (r : ReadOutcome) (cur : StateData) : StateData × Bool :=
  match r with
  | .missing => (emptyState, false)
  | .readError => (cur, true)
  | .corrupt => (emptyState, true)
  | .parsed s => (s, false)

/-- A pending `os.WriteFile` call: payload and permission bits. -/
structure WriteRequest where
  data : StateData
  perm : Nat
deriving Repr, DecidableEq

/-- `Manager.Save`: stamp `LastUpdated` and write the marshalled state
with permissions `0o600`. -/
def save (st : StateData) (now : Int) : WriteRequest :=
  { data := { st with lastUpdated := now }, perm := 0o600 }

/-! ### Concrete fixtures used by witnesses and counterexamples -/

/-- A trivially-succeeding scan environment. -/
def envT : ScanEnv :=
  { verifyHostname := fun _ _ => true
    hostnameErrText := fun _ _ => "x509: certificate is not valid"
    rfc3339 := fun _ => "1970-01-01T00:00:00Z" }

/-- A constant stand-in for SHA-256 hex encoding. -/
def shaT : List Nat → String := fun _ => "d0"

/-- A certificate whose `NotAfter` is the epoch: expired at any positive
`now`. -/
def certExpired : XCert :=
  { subjectCN := "a", issuerCN := "b", subjectDN := "CN=a", issuerDN := "CN=b"
    notBefore := -10, notAfter := 0, sigAlg := "SHA256-RSA", raw := []
    serial := 7, issuerOrgs := [], dnsNames := [], ipStrings := [] }

/-- A sample identity that is mid-migration. -/
def stMigrating : StateData :=
  { agentID := "old-id", agentName := "edge-1", previousAgentID := "older-id"
    lastSyncAt := 100, lastUpdated := 100 }

/-- A successful sync response confirming one migrated record. -/
def respMigrated : SyncResponse :=
  { agentID := "new-id"
    data := { syncedAt := 200, created := 0, updated := 1, unchanged := 0
              orphaned := 0, migrated := 1 }
    success := true }

/-- A sync response whose success flag is false. -/
def respFailed : SyncResponse :=
  { agentID := "new-id"
    data := { syncedAt := 200, created := 0, updated := 0, unchanged := 0
              orphaned := 0, migrated := 0 }
    success := false }

/-- A sync response claiming success but carrying no agent id. -/
def respEmptyID : SyncResponse :=
  { agentID := ""
    data := { syncedAt := 5, created := 0, updated := 0, unchanged := 0
              orphaned := 0, migrated := 1 }
    success := true }

/-- Two sample endpoints. -/
def epA : CertificateConfig :=
  { hostname := "a.example.com", port := 443, tags := [], notes := "" }

/-- See `epA`. -/
def epB : CertificateConfig :=
  { hostname := "b.example.com", port := 8443, tags := ["edge"], notes := "lab" }

/-! Decomposition lemmas relating the imperative loops to the
specification-side lists. -/

theorem chainLoop_eq (env : ScanEnv) (now : Int) :
    ∀ (cs : List XCert) (i : Nat) (chain : ChainInfo),
    chainLoop env now i cs chain =
      { valid := chain.valid && !(cs.any (certInvalidAt now))
        issues := chain.issues ++ passOneIssuesFrom env now i cs
        certificates := chain.certificates ++ cs.map mkChainCert } := by
  intro cs
  induction cs with
  | nil => intro i chain; simp [chainLoop, passOneIssuesFrom]
  | cons c cs ih =>
    intro i chain
    rw [chainLoop, ih]
    simp only [chainStep, certPassIssues, certInvalidAt, List.any_cons, List.map_cons]
    by_cases h1 : now > c.notAfter <;> by_cases h2 : now < c.notBefore <;>
      by_cases h3 : i = 0 ∧ c.subjectDN = c.issuerDN <;>
      simp [h1, h2, h3, passOneIssuesFrom, certPassIssues, List.append_assoc]

theorem weakLoop_eq :
    ∀ (cs : List XCert) (i : Nat) (chain : ChainInfo),
    weakLoop i cs chain = { chain with issues := chain.issues ++ weakIssuesFrom i cs } := by
  intro cs
  induction cs with
  | nil => intro i chain; simp [weakLoop, weakIssuesFrom]
  | cons c cs ih =>
    intro i chain
    rw [weakLoop, ih]
    by_cases h : isWeakSignature c.sigAlg = true <;>
      simp [h, weakIssuesFrom, List.append_assoc]

/-- Full decomposition of `parseChain` into the three spec-ordered issue
segments, the validity flag, and the per-certificate summary list. -/
theorem parseChain_eq (env : ScanEnv) (certs : List XCert) (hostname : String) (now : Int) :
    parseChain env certs hostname now =
      { valid := !(certs.any (certInvalidAt now))
        issues := passOneIssuesFrom env now 0 certs ++
                  hostnameIssues env certs hostname ++
                  weakIssuesFrom 0 certs
        certificates := certs.map mkChainCert } := by
  match certs with
  | [] =>
    simp [parseChain, chainLoop_eq, weakLoop_eq, hostnameIssues, weakIssuesFrom,
      passOneIssuesFrom]
  | leaf :: rest =>
    by_cases h : env.verifyHostname leaf hostname = true <;>
      simp [parseChain, chainLoop_eq, weakLoop_eq, hostnameIssues, h, List.append_assoc]

theorem certPass_invalid_iff (env : ScanEnv) (now : Int) (i : Nat) (c : XCert) :
    (∃ iss ∈ certPassIssues env now i c,
      iss.type = "expired" ∨ iss.type = "not_yet_valid") ↔ certInvalidAt now c = true := by
  unfold certPassIssues certInvalidAt
  by_cases h1 : now > c.notAfter <;> by_cases h2 : now < c.notBefore <;>
    by_cases h3 : i = 0 ∧ c.subjectDN = c.issuerDN <;> simp [h1, h2, h3]

theorem passOne_invalid_iff (env : ScanEnv) (now : Int) :
    ∀ (cs : List XCert) (i : Nat),
    (∃ iss ∈ passOneIssuesFrom env now i cs,
      iss.type = "expired" ∨ iss.type = "not_yet_valid") ↔
      cs.any (certInvalidAt now) = true := by
  intro cs
  induction cs with
  | nil => intro i; simp [passOneIssuesFrom]
  | cons c cs ih =>
    intro i
    rw [List.any_cons, Bool.or_eq_true, ← certPass_invalid_iff env now i c, ← ih (i + 1)]
    simp only [passOneIssuesFrom]
    constructor
    · rintro ⟨iss, hmem, ht⟩
      rcases List.mem_append.mp hmem with h | h
      · exact Or.inl ⟨iss, h, ht⟩
      · exact Or.inr ⟨iss, h, ht⟩
    · rintro (⟨iss, h, ht⟩ | ⟨iss, h, ht⟩)
      · exact ⟨iss, List.mem_append.mpr (Or.inl h), ht⟩
      · exact ⟨iss, List.mem_append.mpr (Or.inr h), ht⟩

theorem mem_hostnameIssues_type (env : ScanEnv) (certs : List XCert) (hostname : String) :
    ∀ iss ∈ hostnameIssues env certs hostname, iss.type = "hostname_mismatch" := by
  intro iss h
  cases certs with
  | nil => simp [hostnameIssues] at h
  | cons leaf rest =>
    by_cases hv : env.verifyHostname leaf hostname = true <;>
      simp [hostnameIssues, hv] at h
    rw [h, hostnameMismatchIssue]

theorem mem_weakIssuesFrom_type :
    ∀ (cs : List XCert) (i : Nat), ∀ iss ∈ weakIssuesFrom i cs, iss.type = "weak_crypto" := by
  intro cs
  induction cs with
  | nil => intro i iss h; simp [weakIssuesFrom] at h
  | cons c cs ih =>
    intro i iss h
    simp only [weakIssuesFrom, List.mem_append] at h
    rcases h with h | h
    · by_cases hw : isWeakSignature c.sigAlg = true <;> simp [hw] at h
      rw [h]
    · exact ih (i + 1) iss h

theorem exists_time_issue_iff (env : ScanEnv) (certs : List XCert)
    (hostname : String) (now : Int) :
    (∃ iss ∈ passOneIssuesFrom env now 0 certs ++
        hostnameIssues env certs hostname ++ weakIssuesFrom 0 certs,
      iss.type = "expired" ∨ iss.type = "not_yet_valid") ↔
      certs.any (certInvalidAt now) = true := by
  rw [← passOne_invalid_iff env now certs 0]
  constructor
  · rintro ⟨iss, hmem, ht⟩
    rcases List.mem_append.mp hmem with hmem | hmem
    · rcases List.mem_append.mp hmem with hmem | hmem
      · exact ⟨iss, hmem, ht⟩
      · rw [mem_hostnameIssues_type env certs hostname iss hmem] at ht
        simp at ht
    · rw [mem_weakIssuesFrom_type certs 0 iss hmem] at ht
      simp at ht
  · rintro ⟨iss, hmem, ht⟩
    exact ⟨iss, List.mem_append.mpr (Or.inl (List.mem_append.mpr (Or.inl hmem))), ht⟩

/-- **C1**: for every chain and hostname, `ChainInfo.valid` is `false` iff the
issue list contains an `expired` or `not_yet_valid` issue; and when every
issue is advisory (`self_signed`, `hostname_mismatch`, `weak_crypto`),
`valid` is `true`. -/
theorem chain_valid_iff_time_issues (env : ScanEnv) (certs : List XCert)
    (hostname : String) (now : Int) :
    ((parseChain env certs hostname now).valid = false ↔
      ∃ iss ∈ (parseChain env certs hostname now).issues,
        iss.type = "expired" ∨ iss.type = "not_yet_valid") ∧
    ((∀ iss ∈ (parseChain env certs hostname now).issues,
        iss.type = "self_signed" ∨ iss.type = "hostname_mismatch" ∨
        iss.type = "weak_crypto") →
      (parseChain env certs hostname now).valid = true) := by
  rw [parseChain_eq]
  dsimp only
  constructor
  · rw [exists_time_issue_iff env certs hostname now]
    cases hb : certs.any (certInvalidAt now) <;> simp [hb]
  · intro hadv
    cases hb : certs.any (certInvalidAt now) with
    | false => simp
    | true =>
      obtain ⟨iss, hmem, ht⟩ := (exists_time_issue_iff env certs hostname now).mpr hb
      rcases hadv iss hmem with h | h | h <;> rw [h] at ht <;> simp at ht

/-- **C1 witness**: the theorem applied to a concrete one-certificate chain. -/
theorem chain_valid_iff_time_issues_witness :
    ((parseChain ⟨fun _ _ => true, fun _ _ => "", fun _ => ""⟩
        [⟨"CN=a", "CN=a", "CN=a", "CN=a", 0, 10, "SHA256-RSA", [], 1, [], [], []⟩]
        "example.com" 5).valid = false ↔
      ∃ iss ∈ (parseChain ⟨fun _ _ => true, fun _ _ => "", fun _ => ""⟩
        [⟨"CN=a", "CN=a", "CN=a", "CN=a", 0, 10, "SHA256-RSA", [], 1, [], [], []⟩]
        "example.com" 5).issues,
        iss.type = "expired" ∨ iss.type = "not_yet_valid") ∧
    ((∀ iss ∈ (parseChain ⟨fun _ _ => true, fun _ _ => "", fun _ => ""⟩
        [⟨"CN=a", "CN=a", "CN=a", "CN=a", 0, 10, "SHA256-RSA", [], 1, [], [], []⟩]
        "example.com" 5).issues,
        iss.type = "self_signed" ∨ iss.type = "hostname_mismatch" ∨
        iss.type = "weak_crypto") →
      (parseChain ⟨fun _ _ => true, fun _ _ => "", fun _ => ""⟩
        [⟨"CN=a", "CN=a", "CN=a", "CN=a", 0, 10, "SHA256-RSA", [], 1, [], [], []⟩]
        "example.com" 5).valid = true) :=
  chain_valid_iff_time_issues _ _ _ _

/-- **C3**: `parseChain` emits its issues as the per-certificate pass in
index order (per certificate: `expired`, then `not_yet_valid`, then
`self_signed` only at index 0), followed by the at-most-one
`hostname_mismatch` at index 0, followed by the `weak_crypto` pass in index
order; and the per-certificate summary list has exactly one entry per input
certificate in input order. -/
theorem parseChain_issue_order (env : ScanEnv) (certs : List XCert)
    (hostname : String) (now : Int) :
    (parseChain env certs hostname now).issues =
      passOneIssuesFrom env now 0 certs ++
      hostnameIssues env certs hostname ++ weakIssuesFrom 0 certs ∧
    (parseChain env certs hostname now).certificates = certs.map mkChainCert := by
  rw [parseChain_eq]
  exact ⟨rfl, rfl⟩

/-- **C3 witness**: the order theorem applied to a concrete two-certificate
chain with a weak leaf signature. -/
theorem parseChain_issue_order_witness :
    (parseChain ⟨fun _ _ => false, fun _ _ => "no SAN", fun _ => "t"⟩
      [⟨"CN=a", "CN=b", "CN=a", "CN=b", 0, 10, "SHA1-RSA", [], 1, [], [], []⟩,
       ⟨"CN=b", "CN=c", "CN=b", "CN=c", 0, 3, "SHA256-RSA", [], 2, [], [], []⟩]
      "example.com" 5).issues =
      passOneIssuesFrom ⟨fun _ _ => false, fun _ _ => "no SAN", fun _ => "t"⟩ 5 0
        [⟨"CN=a", "CN=b", "CN=a", "CN=b", 0, 10, "SHA1-RSA", [], 1, [], [], []⟩,
         ⟨"CN=b", "CN=c", "CN=b", "CN=c", 0, 3, "SHA256-RSA", [], 2, [], [], []⟩] ++
      hostnameIssues ⟨fun _ _ => false, fun _ _ => "no SAN", fun _ => "t"⟩
        [⟨"CN=a", "CN=b", "CN=a", "CN=b", 0, 10, "SHA1-RSA", [], 1, [], [], []⟩,
         ⟨"CN=b", "CN=c", "CN=b", "CN=c", 0, 3, "SHA256-RSA", [], 2, [], [], []⟩]
        "example.com" ++
      weakIssuesFrom 0
        [⟨"CN=a", "CN=b", "CN=a", "CN=b", 0, 10, "SHA1-RSA", [], 1, [], [], []⟩,
         ⟨"CN=b", "CN=c", "CN=b", "CN=c", 0, 3, "SHA256-RSA", [], 2, [], [], []⟩] ∧
    (parseChain ⟨fun _ _ => false, fun _ _ => "no SAN", fun _ => "t"⟩
      [⟨"CN=a", "CN=b", "CN=a", "CN=b", 0, 10, "SHA1-RSA", [], 1, [], [], []⟩,
       ⟨"CN=b", "CN=c", "CN=b", "CN=c", 0, 3, "SHA256-RSA", [], 2, [], [], []⟩]
      "example.com" 5).certificates =
      List.map mkChainCert
        [⟨"CN=a", "CN=b", "CN=a", "CN=b", 0, 10, "SHA1-RSA", [], 1, [], [], []⟩,
         ⟨"CN=b", "CN=c", "CN=b", "CN=c", 0, 3, "SHA256-RSA", [], 2, [], [], []⟩] :=
  parseChain_issue_order _ _ _ _

/-- **C2 counterexample**: a leaf whose `NotAfter` passed one hour before
the scan gets `daysUntilExpiry = 0` — not negative, and not the signed
floor of hours-until-expiry over 24, which would be `-1`. -/
theorem daysUntilExpiry_counterexample :
    certExpired.notAfter < 3600000000000 ∧
    (parseCertificate shaT 3600000000000 certExpired).daysUntilExpiry = 0 ∧
    Int.fdiv (certExpired.notAfter - 3600000000000) nsPerDay = -1 := by
  refine ⟨by decide, ?_, by decide⟩
  show Int.tdiv (certExpired.notAfter - 3600000000000) nsPerDay = 0
  decide

/-- **C2 amended**: `daysUntilExpiry` is the truncation toward zero of the
hours-until-`NotAfter` over 24 (not its floor): when `NotAfter` is in the
past it is at most `0`, and it is negative exactly when `NotAfter` is at
least 24 hours in the past. -/
theorem daysUntilExpiry_truncation (sha256Hex : List Nat → String) (now : Int)
    (c : XCert) (h : c.notAfter < now) :
    (parseCertificate sha256Hex now c).daysUntilExpiry ≤ 0 ∧
    ((parseCertificate sha256Hex now c).daysUntilExpiry < 0 ↔
      nsPerDay ≤ now - c.notAfter) := by
  have hd : (parseCertificate sha256Hex now c).daysUntilExpiry =
      Int.tdiv (c.notAfter - now) nsPerDay := rfl
  have hneg : c.notAfter - now = -(now - c.notAfter) := by omega
  have hN : (0 : Int) < nsPerDay := by norm_num [nsPerDay]
  have htd : Int.tdiv (now - c.notAfter) nsPerDay = (now - c.notAfter) / nsPerDay :=
    Int.tdiv_eq_ediv (by omega) (by omega)
  rw [hd, hneg, Int.neg_tdiv, htd]
  have hnn : 0 ≤ (now - c.notAfter) / nsPerDay := Int.ediv_nonneg (by omega) (by omega)
  refine ⟨by omega, ?_, ?_⟩
  · intro hlt
    by_contra hcon
    have hz : (now - c.notAfter) / nsPerDay = 0 :=
      Int.ediv_eq_zero_of_lt (by omega) (by omega)
    omega
  · intro hge
    have h1 : (1 : Int) ≤ (now - c.notAfter) / nsPerDay := by
      rw [Int.le_ediv_iff_mul_le hN]; omega
    omega

/-- **C2 amended witness**: the amended theorem at a cert two full days
expired. -/
theorem daysUntilExpiry_truncation_witness :
    certExpired.notAfter < 172800000000000 ∧
    ((parseCertificate shaT 172800000000000 certExpired).daysUntilExpiry ≤ 0 ∧
     ((parseCertificate shaT 172800000000000 certExpired).daysUntilExpiry < 0 ↔
       nsPerDay ≤ 172800000000000 - certExpired.notAfter)) :=
  ⟨by decide, daysUntilExpiry_truncation shaT 172800000000000 certExpired (by decide)⟩

theorem scanAllFrom_length (scanOf : CertificateConfig → ScanResult)
    (cb : Nat → Bool) (now : Int) :
    ∀ (cs : List CertificateConfig) (k : Nat),
    (scanAllFrom scanOf cb now k cs).length = cs.length := by
  intro cs
  induction cs with
  | nil => intro k; rfl
  | cons c cs ih => intro k; simp [scanAllFrom, ih (k + 1)]

theorem scanAllFrom_getElem (scanOf : CertificateConfig → ScanResult)
    (cb : Nat → Bool) (now : Int) :
    ∀ (cs : List CertificateConfig) (k i : Nat),
    (scanAllFrom scanOf cb now k cs)[i]? =
      (cs[i]?).map (fun c => if cb (k + i) then canceledResult now c else scanOf c) := by
  intro cs
  induction cs with
  | nil => intro k i; simp [scanAllFrom]
  | cons c cs ih =>
    intro k i
    match i with
    | 0 => simp [scanAllFrom]
    | i + 1 =>
      have harith : k + 1 + i = k + (i + 1) := by omega
      simp [scanAllFrom, ih (k + 1) i, harith]

/-- **C4**: `scanAll` yields exactly one result per endpoint; the result at
position `i` is endpoint `i`'s: the synthesized
`success=false, error="context canceled"` record when its goroutine saw
cancellation instead of a semaphore slot (no scan invoked), and `Scan`'s
result otherwise — independent of any completion order, which the oracles
quantify over. -/
theorem scanAll_positional (scanOf : CertificateConfig → ScanResult)
    (cb : Nat → Bool) (now : Int) (certs : List CertificateConfig) :
    (scanAll scanOf cb now certs).length = certs.length ∧
    ∀ i : Nat,
      (scanAll scanOf cb now certs)[i]? =
        (certs[i]?).map (fun c => if cb i then canceledResult now c else scanOf c) := by
  refine ⟨scanAllFrom_length scanOf cb now certs 0, fun i => ?_⟩
  have := scanAllFrom_getElem scanOf cb now certs 0 i
  simpa using this

/-- **C4 witness**: two endpoints, the first canceled before its slot. -/
theorem scanAll_positional_witness :
    (scanAll (fun c => canceledResult 9 c) (fun i => decide (i = 0)) 9 [epA, epB]).length =
      ([epA, epB] : List CertificateConfig).length ∧
    ∀ i : Nat,
      (scanAll (fun c => canceledResult 9 c) (fun i => decide (i = 0)) 9 [epA, epB])[i]? =
        (([epA, epB] : List CertificateConfig)[i]?).map
          (fun c => if decide (i = 0) then canceledResult 9 c else canceledResult 9 c) :=
  scanAll_positional (fun c => canceledResult 9 c) (fun i => decide (i = 0)) 9 [epA, epB]

/-- **C5 counterexample**: a response with `success == true` but an empty
`agent_id` leaves the identity untouched: `lastSyncAt` does not become the
server timestamp, the agent id is not the returned one, and the pending
`previousAgentID` is not cleared even though `migrated > 0`. -/
theorem sync_success_counterexample :
    respEmptyID.success = true ∧
    (syncApply "edge-1" stMigrating respEmptyID).1 = stMigrating ∧
    stMigrating.lastSyncAt ≠ respEmptyID.data.syncedAt ∧
    stMigrating.agentID ≠ respEmptyID.agentID ∧
    respEmptyID.data.migrated > 0 ∧
    stMigrating.previousAgentID ≠ "" := by
  refine ⟨rfl, ?_, by decide, by decide, by decide, by decide⟩
  rfl

/-- **C5 amended**: after a `Sync` whose response has `success == true`
**and a non-empty agentID**, the identity holds the returned agent id, the
configured agent name, and the server sync timestamp; `previousAgentID` is
cleared exactly when it was non-empty and `migrated > 0`, so `migrated == 0`
leaves it unchanged. -/
theorem sync_success_postconditions (cfgAgentName : String) (st : StateData)
    (resp : SyncResponse) (hs : resp.success = true) (ha : resp.agentID ≠ "") :
    (syncApply cfgAgentName st resp).1.agentID = resp.agentID ∧
    (syncApply cfgAgentName st resp).1.agentName = cfgAgentName ∧
    (syncApply cfgAgentName st resp).1.lastSyncAt = resp.data.syncedAt ∧
    (syncApply cfgAgentName st resp).1.previousAgentID =
      (if st.previousAgentID ≠ "" ∧ resp.data.migrated > 0 then ""
       else st.previousAgentID) := by
  unfold syncApply
  rw [if_pos ⟨hs, ha⟩]
  by_cases hm : st.previousAgentID ≠ "" ∧ resp.data.migrated > 0 <;> simp [hm]

/-- **C5 amended witness**: a successful migrating sync clears the
breadcrumb and adopts the server identity. -/
theorem sync_success_postconditions_witness :
    respMigrated.success = true ∧ respMigrated.agentID ≠ "" ∧
    ((syncApply "edge-1" stMigrating respMigrated).1.agentID = respMigrated.agentID ∧
     (syncApply "edge-1" stMigrating respMigrated).1.agentName = "edge-1" ∧
     (syncApply "edge-1" stMigrating respMigrated).1.lastSyncAt =
       respMigrated.data.syncedAt ∧
     (syncApply "edge-1" stMigrating respMigrated).1.previousAgentID =
       (if stMigrating.previousAgentID ≠ "" ∧ respMigrated.data.migrated > 0 then ""
        else stMigrating.previousAgentID)) :=
  ⟨rfl, by decide, sync_success_postconditions "edge-1" stMigrating respMigrated rfl (by decide)⟩

/-- **C6**: a heartbeat failing with the distinguished not-found error runs
recovery synchronously: the agent id is cleared while the agent name is
kept, and one full scan+sync cycle is forced on the heartbeat call path. -/
theorem heartbeat_not_found_recovery (scanSync : StateData → StateData × Option HBError)
    (ver cfgAgentName : String) (st : StateData) (certCount lastScan lastSync : Int)
    (hid : st.agentID ≠ "") :
    (sendHeartbeat (some HBError.agentNotFound) scanSync ver cfgAgentName st
        certCount lastScan lastSync).2.1 = true ∧
    (sendHeartbeat (some HBError.agentNotFound) scanSync ver cfgAgentName st
        certCount lastScan lastSync).1 = (scanSync (clearAgentID st)).1 ∧
    (clearAgentID st).agentID = "" ∧
    (clearAgentID st).agentName = st.agentName := by
  unfold sendHeartbeat heartbeatCall
  rw [if_neg hid]
  simp [clearAgentID]

/-- **C6 witness**: recovery from a not-found heartbeat on a registered
identity. -/
theorem heartbeat_not_found_recovery_witness :
    stMigrating.agentID ≠ "" ∧
    ((sendHeartbeat (some HBError.agentNotFound)
        (fun s => ({ s with agentID := "fresh" }, none)) "0.3.0" "edge-1" stMigrating
        4 0 0).2.1 = true ∧
     (sendHeartbeat (some HBError.agentNotFound)
        (fun s => ({ s with agentID := "fresh" }, none)) "0.3.0" "edge-1" stMigrating
        4 0 0).1 = ((fun s => ({ s with agentID := "fresh" }, (none : Option HBError)))
          (clearAgentID stMigrating)).1 ∧
     (clearAgentID stMigrating).agentID = "" ∧
     (clearAgentID stMigrating).agentName = stMigrating.agentName) :=
  ⟨by decide, heartbeat_not_found_recovery
    (fun s => ({ s with agentID := "fresh" }, none)) "0.3.0" "edge-1" stMigrating
    4 0 0 (by decide)⟩

/-- **C7**: every dial or handshake failure is captured in the result, a
certificate-free handshake yields exactly "no certificates received", and
a parsed certificate is present iff the scan succeeded. -/
theorem scan_error_handling (env : ScanEnv) (sha256Hex : List Nat → String)
    (hostname : String) (port : Int) (now : Int) :
    (∀ msg,
      (scan env sha256Hex (DialOutcome.dialError msg) hostname port now).success = false ∧
      (scan env sha256Hex (DialOutcome.dialError msg) hostname port now).error =
        "connection failed: " ++ msg) ∧
    ((scan env sha256Hex (DialOutcome.connected []) hostname port now).success = false ∧
     (scan env sha256Hex (DialOutcome.connected []) hostname port now).error =
       "no certificates received") ∧
    (∀ outcome,
      ((scan env sha256Hex outcome hostname port now).certificate.isSome = true ↔
       (scan env sha256Hex outcome hostname port now).success = true)) := by
  refine ⟨fun msg => ⟨rfl, rfl⟩, ⟨rfl, rfl⟩, fun outcome => ?_⟩
  match outcome with
  | .dialError msg => simp [scan]
  | .connected [] => simp [scan]
  | .connected (leaf :: rest) => simp [scan]

/-- **C7 witness**: a refused connection is captured, not fatal. -/
theorem scan_error_handling_witness :
    (scan envT shaT (DialOutcome.dialError "connection refused") "a.example.com" 443 0).success =
      false ∧
    (scan envT shaT (DialOutcome.dialError "connection refused") "a.example.com" 443 0).error =
      "connection failed: " ++ "connection refused" :=
  (scan_error_handling envT shaT "a.example.com" 443 0).1 "connection refused"

/-- **C8**: with no persisted agent id, `Heartbeat` returns immediately
with no error, issues no HTTP request, and leaves the state untouched. -/
theorem heartbeat_noop_when_unregistered (net : Option HBError)
    (ver cfgAgentName : String) (st : StateData)
    (certCount lastScan lastSync : Int) (h : st.agentID = "") :
    heartbeatCall net ver cfgAgentName st certCount lastScan lastSync = (st, none, none) := by
  unfold heartbeatCall
  rw [if_pos h]

/-- **C8 witness**: the no-op on the first-run identity. -/
theorem heartbeat_noop_when_unregistered_witness :
    emptyState.agentID = "" ∧
    heartbeatCall (some HBError.agentNotFound) "0.3.0" "edge-1" emptyState 4 0 0 =
      (emptyState, none, none) :=
  ⟨rfl, heartbeat_noop_when_unregistered (some HBError.agentNotFound) "0.3.0" "edge-1"
    emptyState 4 0 0 rfl⟩

/-- **C9**: on a freshly created manager, a missing, unreadable or
unparseable state file leaves the empty first-run identity in memory
(failures are returned values, never a crash), and every save writes the
file with owner-only `0o600` permissions. -/
theorem load_failures_and_save_perm :
    (∀ r : ReadOutcome,
      (r = ReadOutcome.missing ∨ r = ReadOutcome.readError ∨ r = ReadOutcome.corrupt) →
      (load r emptyState).1 = emptyState) ∧
    (∀ (st : StateData) (now : Int), (save st now).perm = 0o600) := by
  constructor
  · rintro r (h | h | h) <;> rw [h] <;> rfl
  · intro st now; rfl

/-- **C9 witness**: a corrupt state file on first load, and a concrete
save. -/
theorem load_failures_and_save_perm_witness :
    (load ReadOutcome.corrupt emptyState).1 = emptyState ∧
    (save stMigrating 300).perm = 0o600 :=
  ⟨load_failures_and_save_perm.1 ReadOutcome.corrupt (Or.inr (Or.inr rfl)),
   load_failures_and_save_perm.2 stMigrating 300⟩

/-- **C10**: a failed HTTP exchange, an unsuccessful response, or an empty
returned agent id leaves the whole identity unchanged and attempts no
state-file write. -/
theorem sync_failure_no_mutation (cfgAgentName : String) (st : StateData)
    (out : Option SyncResponse)
    (h : out = none ∨
      ∃ resp, out = some resp ∧ (resp.success = false ∨ resp.agentID = "")) :
    syncStep cfgAgentName st out = (st, false) := by
  rcases h with h | ⟨resp, hout, hfail⟩
  · rw [h]; rfl
  · rw [hout]
    show syncApply cfgAgentName st resp = (st, false)
    unfold syncApply
    rw [if_neg]
    rintro ⟨hs, ha⟩
    rcases hfail with hf | hf
    · rw [hf] at hs; exact Bool.false_ne_true hs
    · exact ha hf

/-- **C10 witness**: an unsuccessful response mutates nothing. -/
theorem sync_failure_no_mutation_witness :
    ((some respFailed = none ∨
      ∃ resp, some respFailed = some resp ∧
        (resp.success = false ∨ resp.agentID = "")) : Prop) ∧
    syncStep "edge-1" stMigrating (some respFailed) = (stMigrating, false) :=
  ⟨Or.inr ⟨respFailed, rfl, Or.inl rfl⟩,
   sync_failure_no_mutation "edge-1" stMigrating (some respFailed)
     (Or.inr ⟨respFailed, rfl, Or.inl rfl⟩)⟩

end CW
